import Mathlib

/-!
Verification development for the hybrid document processor (src/main.py).

The Python source is shallowly embedded: pure string manipulation is
translated to computable Lean functions over `List Char` / `String`;
the regular-expression searches of the field parser are executed by a
small fuel-based backtracking matcher faithful to Python `re` semantics
(leftmost search position, greedy/lazy backtracking order, capture
groups) for the constructs those fixed patterns use; effectful calls
(S3 download, DynamoDB writes, tesseract, HTTP fetch) are oracles
passed in explicitly, and Python exceptions are the `Except` monad.
All recursion is structural so that concrete runs reduce in the kernel.
-/

namespace DocProc

/-! ## Python string primitives (ASCII-faithful models) -/

/-- Characters Python's `str.split()` / `str.strip()` treat as whitespace
(ASCII range; the source only ever feeds ASCII-ish OCR text through these). -/
def pyWSChar (c : Char) : Bool :=
  c == ' ' || c == '\t' || c == '\n' || c == '\r' || c == '\x0b' || c == '\x0c'

/-- Model of `str.strip()` on a character list. -/
def pyStripL (l : List Char) : List Char :=
  ((l.dropWhile pyWSChar).reverse.dropWhile pyWSChar).reverse

/-- Model of `str.strip()`. -/
def pyStripS (s : String) : String := ⟨pyStripL s.data⟩

/-- Model of `str.lower()` (ASCII). -/
def pyLowerS (s : String) : String := ⟨s.data.map Char.toLower⟩

/-- Model of `str.upper()` (ASCII). -/
def pyUpperL (l : List Char) : List Char := l.map Char.toUpper

/-- Model of `str.split()` with no separator: split on whitespace runs, discarding
empty pieces.  `acc` holds the current fragment reversed. -/
def splitWsAux : List Char → List Char → List (List Char)
  | [], acc => if acc.isEmpty then [] else [acc.reverse]
  | c :: t, acc =>
    if pyWSChar c then
      if acc.isEmpty then splitWsAux t [] else acc.reverse :: splitWsAux t []
    else splitWsAux t (c :: acc)

def pySplitWsL (l : List Char) : List (List Char) := splitWsAux l []

/-- Model of `'\n'.join` on character lists (used where the source joins lines). -/
def joinNL : List (List Char) → List Char
  | [] => []
  | [p] => p
  | p :: q :: r => p ++ '\n' :: joinNL (q :: r)

/-- Model of `sep.join` with a single separator character. -/
def joinWith (sep : Char) : List (List Char) → List Char
  | [] => []
  | [p] => p
  | p :: q :: r => p ++ sep :: joinWith sep (q :: r)

/-- Model of `str.split('\n')` (keeps empty pieces, including a trailing one). -/
def splitNLAux : List Char → List Char → List (List Char)
  | [], acc => [acc.reverse]
  | '\n' :: t, acc => acc.reverse :: splitNLAux t []
  | c :: t, acc => splitNLAux t (c :: acc)

def splitNL (s : String) : List String := (splitNLAux s.data []).map (⟨·⟩)

/-- Model of `str.splitlines()` for the ASCII line breaks `\r\n`, `\r`, `\n`:
each break terminates a line; a final line without a break is kept;
the empty string yields no lines. -/
def splitlinesAux : List Char → List Char → List (List Char)
  | [], acc => if acc.isEmpty then [] else [acc.reverse]
  | '\r' :: '\n' :: t, acc => acc.reverse :: splitlinesAux t []
  | '\r' :: t, acc => acc.reverse :: splitlinesAux t []
  | '\n' :: t, acc => acc.reverse :: splitlinesAux t []
  | c :: t, acc => splitlinesAux t (c :: acc)

def splitlinesPy (s : String) : List String := (splitlinesAux s.data []).map (⟨·⟩)

/-- Substring test: Python's `needle in haystack`. -/
def containsSubL (hay pat : List Char) : Bool :=
  match hay with
  | [] => pat.isEmpty
  | _ :: t => pat.isPrefixOf hay || containsSubL t pat

def containsSubS (hay pat : String) : Bool := containsSubL hay.data pat.data

/-- Model of `str.replace(pat, rep)`: all non-overlapping occurrences, left to right.
Fuel-driven so the kernel can evaluate it; fuel `l.length + 1` suffices. -/
def replaceAllL (pat rep : List Char) : Nat → List Char → List Char
  | 0, l => l
  | _ + 1, [] => []
  | fuel + 1, c :: t =>
    if !pat.isEmpty && pat.isPrefixOf (c :: t) then
      rep ++ replaceAllL pat rep fuel ((c :: t).drop pat.length)
    else
      c :: replaceAllL pat rep fuel t

/-! ## A small regex engine

Faithful to Python `re` for the constructs the source's fixed patterns
use: character classes, concatenation, alternation (only from desugared
`?`), greedy and lazy repetition, capture groups, `re.search` scanning
and `re.finditer`.  The matcher enumerates backtracking alternatives in
Python's priority order; fuel only bounds recursion depth and is chosen
large enough to never be exhausted for these patterns. -/

inductive RE where
  | eps
  | cls (p : Char → Bool)
  | seq (a b : RE)
  | alt (a b : RE)
  | star (lzy : Bool) (a : RE)
  | group (idx : Nat) (a : RE)

/-- Recorded capture groups: index paired with the captured characters. -/
abbrev Caps := List (Nat × List Char)

def sizeRE : RE → Nat
  | .eps => 1
  | .cls _ => 1
  | .seq a b => sizeRE a + sizeRE b + 1
  | .alt a b => sizeRE a + sizeRE b + 1
  | .star _ a => sizeRE a + 1
  | .group _ a => sizeRE a + 1

/-- All ways to match `re` against a prefix of `s`, in backtracking
priority order; each result is the remaining input with the captures. -/
def mtch : Nat → RE → List Char → Caps → List (List Char × Caps)
  | 0, _, _, _ => []
  | fuel + 1, re, s, cs =>
    match re with
    | .eps => [(s, cs)]
    | .cls p =>
      match s with
      | [] => []
      | c :: t => if p c then [(t, cs)] else []
    | .seq a b => (mtch fuel a s cs).flatMap fun pr => mtch fuel b pr.1 pr.2
    | .alt a b => mtch fuel a s cs ++ mtch fuel b s cs
    | .group i a =>
      (mtch fuel a s cs).map fun pr =>
        (pr.1, (i, s.take (s.length - pr.1.length)) :: pr.2)
    | .star lzy a =>
      let deeper :=
        (mtch fuel a s cs).flatMap fun pr =>
          if pr.1.length < s.length then mtch fuel (.star lzy a) pr.1 pr.2 else []
      if lzy then (s, cs) :: deeper else deeper ++ [(s, cs)]

/-- Fuel bound: matcher recursion depth never exceeds this for these patterns. -/
def fuelFor (re : RE) (s : List Char) : Nat := (sizeRE re + 1) * (s.length + 2)

/-- Model of `re.search` scanning: try every start position left to right and return
the first successful match's captures plus the input remaining after it. -/
def researchRest (re : RE) : List Char → Option (Caps × List Char)
  | [] =>
    match mtch (fuelFor re []) re [] [] with
    | pr :: _ => some (pr.2, pr.1)
    | [] => none
  | c :: t =>
    match mtch (fuelFor re (c :: t)) re (c :: t) [] with
    | pr :: _ => some (pr.2, pr.1)
    | [] => researchRest re t

/-- Model of `re.search`, returning only the captures of the first match. -/
def research (re : RE) (s : List Char) : Option Caps :=
  (researchRest re s).map (·.1)

/-- Model of `match.group(i)` (last capture of group `i`; each group here captures
at most once per match). -/
def capGet (caps : Caps) (i : Nat) : String :=
  match caps.find? (·.1 == i) with
  | some pr => ⟨pr.2⟩
  | none => ""

/-- Model of `re.finditer`, collecting capture sets of successive non-overlapping
matches; all source patterns consume at least one character per match. -/
def finditerAux : Nat → RE → List Char → List Caps
  | 0, _, _ => []
  | fuel + 1, re, s =>
    match researchRest re s with
    | none => []
    | some (caps, rest) =>
      caps :: (if rest.length < s.length then finditerAux fuel re rest else [])

def refinditer (re : RE) (s : List Char) : List Caps :=
  finditerAux (s.length + 1) re s

/-! Pattern building blocks mirroring the regex syntax of the source. -/

def rchar (c : Char) : RE := .cls (fun d => d == c)

/-- A literal string. -/
def rstr (s : String) : RE := s.data.foldr (fun c r => .seq (rchar c) r) .eps

/-- A literal string under `re.IGNORECASE`. -/
def rstrCI (s : String) : RE :=
  s.data.foldr (fun c r => .seq (.cls (fun d => d.toLower == c.toLower)) r) .eps

/-- Concatenation of a pattern list. -/
def rcat (l : List RE) : RE := l.foldr .seq .eps

def rplus (a : RE) : RE := .seq a (.star false a)

def rplusLazy (a : RE) : RE := .seq a (.star true a)

def ropt (a : RE) : RE := .alt a .eps

def rrep : Nat → RE → RE
  | 0, _ => .eps
  | n + 1, a => .seq a (rrep n a)

def isDigitC (c : Char) : Bool := '0' ≤ c && c ≤ '9'
def isUpperC (c : Char) : Bool := 'A' ≤ c && c ≤ 'Z'
def isLowerC (c : Char) : Bool := 'a' ≤ c && c ≤ 'z'
def isAlphaC (c : Char) : Bool := isUpperC c || isLowerC c

def clsWS : RE := .cls pyWSChar
def clsDigit : RE := .cls isDigitC
/-- Model of `.` under `re.DOTALL` (the only place the source uses `.` across text
is with `re.DOTALL`). -/
def dotAll : RE := .cls (fun _ => true)

/-! ## Field parser patterns (src/main.py, `extract_invoice_fields`) -/

/-- Pattern `[\d,\.]` -/
def clsNum : RE := .cls (fun c => isDigitC c || c == ',' || c == '.')

/-- Pattern `[A-Z0-9]` -/
def clsUpNum : RE := .cls (fun c => isUpperC c || isDigitC c)

/-- Pattern `INVOICE NO[:\s]+([A-Z0-9/]+)` -/
def patInvoiceNo : RE :=
  rcat [rstr "INVOICE NO", rplus (.cls (fun c => c == ':' || pyWSChar c)),
        .group 1 (rplus (.cls (fun c => isUpperC c || isDigitC c || c == '/')))]

/-- Pattern `Date\s*:\s*([0-9]{2}/[0-9]{2}/[0-9]{4}(?:\s[0-9:]+)?)` -/
def patInvoiceDate : RE :=
  rcat [rstr "Date", .star false clsWS, rchar ':', .star false clsWS,
        .group 1 (rcat [rrep 2 clsDigit, rchar '/', rrep 2 clsDigit, rchar '/',
                        rrep 4 clsDigit,
                        ropt (.seq clsWS (rplus (.cls (fun c => isDigitC c || c == ':'))))])]

/-- Pattern `Due Date\s*:\s*([0-9]{2}/[0-9]{2}/[0-9]{4})` -/
def patDueDate : RE :=
  rcat [rstr "Due Date", .star false clsWS, rchar ':', .star false clsWS,
        .group 1 (rcat [rrep 2 clsDigit, rchar '/', rrep 2 clsDigit, rchar '/',
                        rrep 4 clsDigit])]

/-- Pattern `[A-Z0-9 \-]` -/
def clsNamePart : RE := .cls (fun c => isUpperC c || isDigitC c || c == ' ' || c == '-')

/-- Pattern `INVOICE TO\s+PIN:\s*([A-Z0-9]+)\s+NAME:\s*([A-Z0-9 \-]+)` -/
def patInvoiceTo : RE :=
  rcat [rstr "INVOICE TO", rplus clsWS, rstr "PIN:", .star false clsWS,
        .group 1 (rplus clsUpNum), rplus clsWS, rstr "NAME:", .star false clsWS,
        .group 2 (rplus clsNamePart)]

/-- Pattern `INVOICE FROM\s+PIN:\s*([A-Z0-9]+)\s+NAME:\s*([A-Z0-9 \-]+)` -/
def patInvoiceFrom : RE :=
  rcat [rstr "INVOICE FROM", rplus clsWS, rstr "PIN:", .star false clsWS,
        .group 1 (rplus clsUpNum), rplus clsWS, rstr "NAME:", .star false clsWS,
        .group 2 (rplus clsNamePart)]

/-- Pattern `[A-Z0-9 ,\-]` -/
def clsAddrPart : RE :=
  .cls (fun c => isUpperC c || isDigitC c || c == ' ' || c == ',' || c == '-')

/-- Pattern `INVOICE FROM.*?ADDRESS[:\s]+([A-Z0-9 ,\-]+)` with `re.DOTALL` -/
def patSupplierAddr : RE :=
  rcat [rstr "INVOICE FROM", .star true dotAll, rstr "ADDRESS",
        rplus (.cls (fun c => c == ':' || pyWSChar c)), .group 1 (rplus clsAddrPart)]

/-- Pattern `INVOICE TO.*?ADDRESS[:\s]+([A-Z0-9 ,\-]+)` with `re.DOTALL` -/
def patCustomerAddr : RE :=
  rcat [rstr "INVOICE TO", .star true dotAll, rstr "ADDRESS",
        rplus (.cls (fun c => c == ':' || pyWSChar c)), .group 1 (rplus clsAddrPart)]

/-- Pattern `([A-Z0-9]+)\s+([A-Za-z ]+?)\s+(\d+)\s+x\s+([\d,\.]+)\s+(\d+%)\s+([\d,\.]+)\s+([\d,\.]+)\s+([\d,\.]+)`
(`re.MULTILINE` only changes `^`/`$`, which the pattern does not use). -/
def patLineItem : RE :=
  rcat [.group 1 (rplus clsUpNum), rplus clsWS,
        .group 2 (rplusLazy (.cls (fun c => isAlphaC c || c == ' '))), rplus clsWS,
        .group 3 (rplus clsDigit), rplus clsWS, rchar 'x', rplus clsWS,
        .group 4 (rplus clsNum), rplus clsWS,
        .group 5 (.seq (rplus clsDigit) (rchar '%')), rplus clsWS,
        .group 6 (rplus clsNum), rplus clsWS,
        .group 7 (rplus clsNum), rplus clsWS,
        .group 8 (rplus clsNum)]

/-- Pattern `Totals\s+KSh\s*([\d,\.]+)\s+KSh\s*[\d,\.]+\s+KSh\s*[\d,\.]+` -/
def patTotals : RE :=
  rcat [rstr "Totals", rplus clsWS, rstr "KSh", .star false clsWS,
        .group 1 (rplus clsNum), rplus clsWS, rstr "KSh", .star false clsWS,
        rplus clsNum, rplus clsWS, rstr "KSh", .star false clsWS, rplus clsNum]

/-- Pattern `Tax\s*KSh\s*([\d,\.]+)` -/
def patTax : RE :=
  rcat [rstr "Tax", .star false clsWS, rstr "KSh", .star false clsWS,
        .group 1 (rplus clsNum)]

/-- Pattern `Total\s*KSh\s*([\d,\.]+)` -/
def patTotal : RE :=
  rcat [rstr "Total", .star false clsWS, rstr "KSh", .star false clsWS,
        .group 1 (rplus clsNum)]

/-- Pattern `Payment Terms\s*:\s*([A-Za-z0-9 ]+)` -/
def patPayTerms : RE :=
  rcat [rstr "Payment Terms", .star false clsWS, rchar ':', .star false clsWS,
        .group 1 (rplus (.cls (fun c => isAlphaC c || isDigitC c || c == ' ')))]

/-- Pattern `Purchase Order Number\s*[:\-]?\s*([A-Z0-9\-]+)` under `re.IGNORECASE`
(the flag also makes the character class case-insensitive). -/
def patPONum : RE :=
  rcat [rstrCI "Purchase Order Number", .star false clsWS,
        ropt (.cls (fun c => c == ':' || c == '-')), .star false clsWS,
        .group 1 (rplus (.cls (fun c => isUpperC c || isLowerC c || isDigitC c || c == '-')))]

/-! ## Field parser (src/main.py, `extract_invoice_fields`) -/

/-- One line-item record of the repeating table. -/
structure LineItem where
  itemCode : String
  descr : String
  quantity : String
  unitPrice : String
  taxRate : String
  subtotal : String
  taxAmount : String
  total : String
deriving DecidableEq, Repr

/-- A value of the invoice-fields mapping: a string field or the
line-item list (the one non-string entry of the Python dict). -/
inductive FieldValue where
  | s (v : String)
  | items (l : List LineItem)
deriving DecidableEq, Repr

/-- Inner helper `find` of `extract_invoice_fields`: first match's group,
stripped, else the sentinel. -/
def find (pat : RE) (grp : Nat) (text : String) : String :=
  match research pat text.data with
  | some caps => pyStripS (capGet caps grp)
  | none => "Not found"

/-- Model of `m.group(i).strip() if m else "Not found"` for a pre-computed search. -/
def groupOr (m : Option Caps) (i : Nat) : String :=
  match m with
  | some caps => pyStripS (capGet caps i)
  | none => "Not found"

/-- Stop condition of `find_multiline`'s collection loop: blank line,
separator of dashes/spaces (`^[- ]+$`), or a line whose stripped form
ends in a colon with at least one character before it (`.+:$`). -/
def stop_line (l : String) : Bool :=
  let t := pyStripL l.data
  t.isEmpty
    || (!t.isEmpty && t.all (fun c => c == '-' || c == ' '))
    || (t.length ≥ 2 && t.getLast? == some ':')

/-- Model of `line.split(':', 1)[1].strip() if ':' in line else ''`. -/
def afterColon (l : String) : String :=
  if l.data.contains ':' then ⟨pyStripL ((l.data.dropWhile (· ≠ ':')).drop 1)⟩ else ""

/-- Drop every space and newline: `.replace(' ', '').replace('\n', '')`. -/
def removeSpacesNL (s : String) : String :=
  ⟨s.data.filter (fun c => c ≠ ' ' && c ≠ '\n')⟩

/-- Collection loop of `find_multiline` after the label line: consume
stripped lines until a stop line, at most `k` of them (the source's
`max_lines = 5` cap allows 4 lines beyond the label line). -/
def fmCollect : List String → Nat → List String
  | [], _ => []
  | _, 0 => []
  | l :: ls, k + 1 => if stop_line l then [] else pyStripS l :: fmCollect ls k

/-- Scan of `find_multiline`: first line whose stripped form starts with
the label wins; its after-colon text plus the collected following lines
are joined and space/newline-stripped. -/
def fmGo (label : String) : List String → String
  | [] => "Not found"
  | l :: ls =>
    if label.data.isPrefixOf (pyStripL l.data) then
      removeSpacesNL (String.join (afterColon l :: fmCollect ls 4))
    else fmGo label ls

/-- Model of `find_multiline(label, text, max_lines=5)` of src/main.py. -/
def find_multiline (label : String) (text : String) : String :=
  fmGo label (splitlinesPy text)

/-- The line-item table extraction (`line_item_pattern.finditer`). -/
def lineItemsOf (text : String) : List LineItem :=
  (refinditer patLineItem text.data).map fun caps =>
    { itemCode := capGet caps 1
      descr := pyStripS (capGet caps 2)
      quantity := capGet caps 3
      unitPrice := capGet caps 4
      taxRate := capGet caps 5
      subtotal := capGet caps 6
      taxAmount := capGet caps 7
      total := capGet caps 8 }

/-- Model of `extract_invoice_fields(text)` of src/main.py: the ordered field
mapping, in the source's insertion order. -/
def extract_invoice_fields (text : String) : List (String × FieldValue) :=
  let invTo := research patInvoiceTo text.data
  let invFrom := research patInvoiceFrom text.data
  [("Invoice Number", .s (find patInvoiceNo 1 text)),
   ("Invoice Date", .s (find patInvoiceDate 1 text)),
   ("Due Date", .s (find patDueDate 1 text)),
   ("Customer/Buyer PIN", .s (groupOr invTo 1)),
   ("Customer/Buyer Name", .s (groupOr invTo 2)),
   ("Supplier/Vendor PIN", .s (groupOr invFrom 1)),
   ("Supplier/Vendor Name", .s (groupOr invFrom 2)),
   ("Supplier Address", .s (find patSupplierAddr 1 text)),
   ("Customer Address", .s (find patCustomerAddr 1 text)),
   ("Line Items", .items (lineItemsOf text)),
   ("Subtotal Amount", .s (find patTotals 1 text)),
   ("Taxable Amount", .s (find patTotals 1 text)),
   ("VAT/Tax Amount", .s (find patTax 1 text)),
   ("Total Amount Due", .s (find patTotal 1 text)),
   ("Currency", .s (if containsSubS text "KSh" || containsSubS text "KES"
                    then "KES" else "Not found")),
   ("Payment Terms", .s (find patPayTerms 1 text)),
   ("Purchase Order Number", .s (find patPONum 1 text)),
   ("Internal Data", .s (find_multiline "Internal Data" text)),
   ("Receipt Signature", .s (find_multiline "Receipt Signature" text)),
   ("SCU ID", .s (find_multiline "SCU ID" text)),
   ("CU INVOICE NO.", .s (find_multiline "CU INVOICE NO." text))]

/-! ## Text formatting (src/main.py, `format_ocr_text`) -/

/-- Model of `' '.join(line.split())`: collapse a line's internal whitespace. -/
def cleanLineL (l : List Char) : List Char := joinWith ' ' (pySplitWsL l)

/-- Keyword test: any of INVOICE/TOTAL/DATE/AMOUNT in the uppercased line. -/
def containsKeyword (l : List Char) : Bool :=
  let u := pyUpperL l
  containsSubL u "INVOICE".data || containsSubL u "TOTAL".data
    || containsSubL u "DATE".data || containsSubL u "AMOUNT".data

/-- Per-line step of `format_ocr_text`: `None` models the `if cleaned:`
filter that drops whitespace-only lines. -/
def formatLineL (line : List Char) : Option (List Char) :=
  let cleaned := cleanLineL line
  if cleaned.isEmpty then none
  else if containsKeyword cleaned then
    some (if cleaned.length < 50 then pyUpperL cleaned else cleaned)
  else some cleaned

/-- The lines the formatter keeps, already transformed. -/
def formattedLinesL (raw : List Char) : List (List Char) :=
  (splitNLAux raw []).filterMap formatLineL

/-- Model of `while '\n\n\n' in result: result = result.replace('\n\n\n', '\n\n')`.
Each pass shortens the text, so fuel `l.length + 1` is never exhausted. -/
def collapseNewlines : Nat → List Char → List Char
  | 0, l => l
  | fuel + 1, l =>
    if containsSubL l ['\n', '\n', '\n'] then
      collapseNewlines fuel (replaceAllL ['\n', '\n', '\n'] ['\n', '\n'] (l.length + 1) l)
    else l

/-- Model of `format_ocr_text(raw_text)` of src/main.py. -/
def format_ocr_text (raw : String) : String :=
  if (pyStripL raw.data).isEmpty then raw
  else
    let result := joinNL (formattedLinesL raw.data)
    ⟨pyStripL (collapseNewlines (result.length + 1) result)⟩

/-! ## Persistence-write cleaning (src/main.py, `convert_float_to_decimal`,
`clean_for_dynamodb`)

Python values that can reach these functions are modelled by `PyVal`;
a float is carried as the rational it denotes, and `Decimal(str(f))`
is modelled as an exact conversion (`str` round-trips the value). -/

inductive PyVal where
  | none
  | str (s : String)
  | int (n : Int)
  | float (q : ℚ)
  | dec (q : ℚ)
  | list (l : List PyVal)
  | dict (l : List (String × PyVal))

/-- Model of `obj is None`. -/
def PyVal.isNone : PyVal → Bool
  | .none => true
  | _ => false

mutual
/-- Model of `convert_float_to_decimal(obj)` of src/main.py. -/
def convert_float_to_decimal : PyVal → PyVal
  | .none => .none
  | .list l => .list (cfdList l)
  | .dict l => .dict (cfdDict l)
  | .float q => .dec q
  | v => v

def cfdList : List PyVal → List PyVal
  | [] => []
  | v :: t => convert_float_to_decimal v :: cfdList t

def cfdDict : List (String × PyVal) → List (String × PyVal)
  | [] => []
  | (k, v) :: t => (k, convert_float_to_decimal v) :: cfdDict t
end

mutual
/-- Model of `clean_for_dynamodb(obj)` of src/main.py.  Note the source filters a
container's entries for `None` BEFORE cleaning each entry. -/
def clean_for_dynamodb : PyVal → PyVal
  | .none => .none
  | .list l => .list (cleanList l)
  | .dict l => .dict (cleanDict l)
  | .float q => .dec q
  | .str s => if (pyStripL s.data).isEmpty then .none else .str s
  | v => v

def cleanList : List PyVal → List PyVal
  | [] => []
  | v :: t => if v.isNone then cleanList t else clean_for_dynamodb v :: cleanList t

def cleanDict : List (String × PyVal) → List (String × PyVal)
  | [] => []
  | (k, v) :: t =>
    if v.isNone then cleanDict t else (k, clean_for_dynamodb v) :: cleanDict t
end

mutual
/-- Whether a value contains a `None` entry anywhere (including itself). -/
def hasNone : PyVal → Bool
  | .none => true
  | .list l => hasNoneList l
  | .dict l => hasNoneDict l
  | _ => false

def hasNoneList : List PyVal → Bool
  | [] => false
  | v :: t => hasNone v || hasNoneList t

def hasNoneDict : List (String × PyVal) → Bool
  | [] => false
  | (_, v) :: t => hasNone v || hasNoneDict t
end

/-! ## Link verifier (src/main.py, `check_qr_links`)

`requests.get` + markup stripping is the oracle `fetch`, giving either
the plain text of the fetched page or the exception's message. -/

/-- The classification loop over the payload list, for a given expected
invoice-number string (already the value `check_qr_links` lowercases). -/
def check_qr_links_core (fetch : String → Except String String)
    (expected : String) : List String → List String × List String
  | [] => ([], [])
  | link :: rest =>
    let vi := check_qr_links_core fetch expected rest
    match fetch link with
    | .ok page =>
      let text := pyLowerS page
      if expected ≠ "" && containsSubS text expected then (link :: vi.1, vi.2)
      else (vi.1, link :: vi.2)
    | .error e => (vi.1, (link ++ " - Error: " ++ e) :: vi.2)

/-- Model of `check_qr_links(qr_links, invoice_fields)` of src/main.py:
`expected_invoice = invoice_fields.get("Invoice Number", "").lower()`. -/
def check_qr_links (fetch : String → Except String String) (qr_links : List String)
    (invoice_fields : List (String × FieldValue)) : List String × List String :=
  let expected :=
    pyLowerS (match invoice_fields.lookup "Invoice Number" with
              | some (.s v) => v
              | _ => "")
  check_qr_links_core fetch expected qr_links

/-! ## Text reader (src/main.py, `extract_text_ocr`, `extract_word_details`)

`pytesseract.image_to_string` and `image_to_data` are oracles; a raised
exception is the `Except.error` case.  The data dictionary is a list of
per-token records. -/

/-- One token of the tesseract data dictionary. -/
structure TessWord where
  word : String
  conf : Int
  left : Int
  top : Int
  width : Int
  height : Int
deriving DecidableEq, Repr

/-- Python `round(x, 1)` on the average confidence.  (Python rounds the
float half-to-even; the runs verified here never hit a tie.) -/
def round1 (q : ℚ) : ℚ := (⌊q * 10 + 1 / 2⌋ : ℚ) / 10

/-- Model of `conf != '-1'` of the confidence filters (the data dictionary holds
integer confidences; -1 marks non-word boxes). -/
def confValid (n : Int) : Bool := n != -1

/-- Stable insertion into a confidence-descending list: an element is
placed before the existing ones of equal or lower confidence, matching
Python's stable `sort(key=..., reverse=True)` for an earlier element. -/
def insertByConf (w : TessWord) : List TessWord → List TessWord
  | [] => [w]
  | x :: t => if x.conf ≤ w.conf then w :: x :: t else x :: insertByConf w t

def sortByConfDesc : List TessWord → List TessWord
  | [] => []
  | w :: t => insertByConf w (sortByConfDesc t)

/-- Model of `extract_word_details(data)` of src/main.py: tokens with non-empty
text and confidence ≠ -1, sorted stably by confidence descending. -/
def extract_word_details (data : List TessWord) : List TessWord :=
  sortByConfDesc (data.filter (fun w => !(pyStripL w.word.data).isEmpty && confValid w.conf))

/-- A per-page text-reader result (the `OCRResult` model). -/
structure OCRResult where
  page : Nat
  text : String
  confidence : ℚ
  raw_text : String
  word_count : Nat
  line_count : Nat
  word_details : List TessWord
deriving DecidableEq, Repr

/-- The guarded `try` of `extract_text_ocr`: average confidence of the
tokens with confidence ≠ -1 (0 if none) and the word details; an
exception from `image_to_data` degrades to confidence 0 and no details. -/
def ocrConfDetails (itd : Except String (List TessWord)) : ℚ × List TessWord :=
  match itd with
  | .error _ => ((0 : ℚ), ([] : List TessWord))
  | .ok data =>
    let confidences := (data.map (fun w => w.conf)).filter confValid
    let avg : ℚ :=
      if confidences.isEmpty then 0
      else (confidences.sum : ℚ) / (confidences.length : ℚ)
    (avg, extract_word_details data)

/-- Model of `extract_text_ocr(image, page_num)` of src/main.py.  Only the
`image_to_data` call and the confidence/detail computation are inside
the `try`; a raising `image_to_string` propagates. -/
def extract_text_ocr (its : Except String String)
    (itd : Except String (List TessWord)) (page_num : Nat) :
    Except String OCRResult := do
  let raw0 ← its
  let raw_text := pyStripS raw0
  let formatted_text := format_ocr_text raw_text
  let avg_conf := (ocrConfDetails itd).1
  let word_details := (ocrConfDetails itd).2
  pure
    { page := page_num
      text := formatted_text
      confidence := round1 avg_conf
      raw_text := raw_text
      word_count := (pySplitWsL formatted_text.data).length
      line_count := ((splitNLAux formatted_text.data []).filter
        (fun l => !(pyStripL l).isEmpty)).length
      word_details := word_details.take 20 }

/-! ## Orchestrator (src/main.py, `process_document_background`) -/

/-- The canonical inbound record (`DynamoDBRecord`): required pydantic
fields are `String`s (possibly empty, which Python treats as falsy),
legacy fields are `Option`s defaulting to `None`. -/
structure DocRecord where
  fileId : String
  uploadedBy : String
  fileName : String
  fileType : String
  s3Key : String
  status : String
  document_id : Option String := Option.none
  bucket : Option String := Option.none
  key : Option String := Option.none
deriving DecidableEq, Repr

/-- Oracles for one page of the per-page loop: QR decoding (the decoded
payload strings), `image_to_string`, `image_to_data`. -/
structure PageEnv where
  qr : Except String (List String)
  its : Except String String
  itd : Except String (List TessWord)

/-- Effect oracles for one background run.  A DynamoDB write site is
`none` when `table.update_item` succeeds and `some e` when it raises
`e` (which `update_dynamodb` logs and re-raises); `upd0`/`upd1`/`upd2`
are the downloading-step, validating-step and final-result writes and
`updFail` the failure-handler's write.  `convert` is the pdf
rasterization, `imagePage` the single page of the image path, `fetch`
the link verifier's HTTP fetch (plain page text or error). -/
structure Env where
  upd0 : Option String
  upd1 : Option String
  upd2 : Option String
  updFail : Option String
  download : Option String
  convert : Except String (List PageEnv)
  imagePage : PageEnv
  fetch : String → Except String String

/-- Model of `update_dynamodb`'s observable outcome at one write site: the write
succeeds, or the store's exception is re-raised (lines 420-425). -/
def doUpdate : Option String → Except String Unit
  | Option.none => .ok ()
  | some e => .error e

/-- Lines 442-447: choose the page list by declared type, else raise
`ValueError("Unsupported file type")`. -/
def rasterize (env : Env) (ft : String) : Except String (List PageEnv) :=
  if ft = "pdf" then env.convert
  else if ft = "image" then .ok [env.imagePage]
  else .error "Unsupported file type"

/-- Lines 449-455: the per-page loop accumulating QR payloads, OCR
results and the joined text (`all_text += "\n" + ocr.text`). -/
def processPages : List PageEnv → Nat → List String → List OCRResult → String →
    Except String (List String × List OCRResult × String)
  | [], _, qrs, ocrs, allText => .ok (qrs, ocrs, allText)
  | p :: ps, i, qrs, ocrs, allText => do
    let pageQrs ← p.qr
    let ocr ← extract_text_ocr p.its p.itd i
    processPages ps (i + 1) (qrs ++ pageQrs) (ocrs ++ [ocr]) (allText ++ "\n" ++ ocr.text)

/-- Line 462: the validation score.  Python's `.get` returns `None` for a
missing key and `None != "Not found"` is true, mirrored by comparing the
optional lookup against `some (.s "Not found")`. -/
def validation_score (invoice_fields : List (String × FieldValue)) : Nat :=
  if invoice_fields.lookup "Invoice Number" ≠ some (.s "Not found") then 80 else 40

/-- The data of the final result relevant to its stored form
(lines 467-525). -/
structure FinalData where
  status : String
  validation_score : Nat
  errors : List String
  invoice_fields : List (String × FieldValue)
  validated_qr_links : List String
  invalid_qr_links : List String
  ocr_results : List OCRResult
  qr_data : List String
deriving DecidableEq

/-- Assembly of the final result (lines 462-487). -/
def mkFinal (invoice_fields : List (String × FieldValue))
    (valid invalid : List String) (ocrs : List OCRResult) (qrs : List String) :
    FinalData :=
  let score := validation_score invoice_fields
  { status := if 50 ≤ score then "completed" else "failed"
    validation_score := score
    errors := if 50 ≤ score then [] else ["Missing Invoice Number"]
    invoice_fields := invoice_fields
    validated_qr_links := valid
    invalid_qr_links := invalid
    ocr_results := ocrs
    qr_data := qrs }

/-- Line 434: `record.fileType if ... and record.fileType else
record.file_type`; `DynamoDBRecord` has no `file_type` attribute, so a
falsy `fileType` raises `AttributeError`. -/
def resolveFileType (r : DocRecord) : Except String String :=
  if r.fileType ≠ "" then .ok r.fileType
  else .error "AttributeError: file_type"

/-- The body of the `try` block of `process_document_background`
(lines 428-525), with each effect drawn from the environment in the
source's order.  An `Except.error` is a Python exception reaching the
outer handler. -/
def runAttempt (env : Env) (r : DocRecord) : Except String FinalData :=
  match resolveFileType r with
  | .error e => .error e
  | .ok ft =>
    match doUpdate env.upd0 with
    | .error e => .error e
    | .ok _ =>
      match env.download with
      | some e => .error e
      | Option.none =>
        match rasterize env ft with
        | .error e => .error e
        | .ok pages =>
          match processPages pages 1 [] [] "" with
          | .error e => .error e
          | .ok (qrs, ocrs, allText) =>
            match doUpdate env.upd1 with
            | .error e => .error e
            | .ok _ =>
              let invoice_fields := extract_invoice_fields allText
              let vi := check_qr_links env.fetch qrs invoice_fields
              match doUpdate env.upd2 with
              | .error e => .error e
              | .ok _ => .ok (mkFinal invoice_fields vi.1 vi.2 ocrs qrs)

/-- Terminal outcome of one background run: final result stored; record
marked failed by the outer handler (lines 527-535); or the handler's own
write also raised, so the exception escaped the background task. -/
inductive Outcome where
  | stored (d : FinalData)
  | markedFailed (err : String)
  | lost (err : String)
deriving DecidableEq

/-- Model of `process_document_background(record)` with its outer failure
boundary. -/
def runBackground (env : Env) (r : DocRecord) : Outcome :=
  match runAttempt env r with
  | .ok d => .stored d
  | .error e =>
    match env.updFail with
    | Option.none => .markedFailed e
    | some _ => .lost e

/-! ## Trigger endpoint (src/main.py, `process_document`, lines 539-548) -/

/-- The endpoint's observable outcome: a raised `HTTPException`
(status code, detail) or the 200 JSON body, plus whether a background
task was scheduled. -/
structure TriggerOutcome where
  response : Except (Nat × String) (List (String × Option String))
  background_started : Bool
deriving Repr

/-- Model of `file_id = record.fileId if ... and record.fileId else
record.document_id` (line 547). -/
def resolved_file_id (r : DocRecord) : Option String :=
  if r.fileId ≠ "" then some r.fileId else r.document_id

/-- Model of `process_document(request, background_tasks)`: reject non-pending
records with a 400 before scheduling any background work, else schedule
the run and return the acknowledgement body. -/
def process_document (r : DocRecord) : TriggerOutcome :=
  if r.status ≠ "pending" then
    { response := .error (400, "Document status must be 'pending'")
      background_started := false }
  else
    { response := .ok [("message", some "Processing started"),
                       ("fileId", resolved_file_id r),
                       ("document_id", resolved_file_id r)]
      background_started := true }

/-! ## Specification-side definitions (for refinement comparisons)

These are written from the (amended) specification wording, structured
independently of the source translation, to be compared with it. -/

/-- The declared field keys of `InvoiceFields`, in order. -/
def declaredKeys : List String :=
  ["Invoice Number", "Invoice Date", "Due Date", "Customer/Buyer PIN",
   "Customer/Buyer Name", "Supplier/Vendor PIN", "Supplier/Vendor Name",
   "Supplier Address", "Customer Address", "Line Items", "Subtotal Amount",
   "Taxable Amount", "VAT/Tax Amount", "Total Amount Due", "Currency",
   "Payment Terms", "Purchase Order Number", "Internal Data",
   "Receipt Signature", "SCU ID", "CU INVOICE NO."]

def FieldValue.isStr : FieldValue → Bool
  | .s _ => true
  | _ => false

def FieldValue.isItems : FieldValue → Bool
  | .items _ => true
  | _ => false

/-- Spec reading of the labeled multi-line extraction, over a line list:
the first line whose stripped form starts with the label contributes the
trimmed text after its first colon; the following lines, each stripped,
are consumed while no stop line is hit, capped at 4; the fragments are
joined and every space/newline removed; sentinel if the label is absent. -/
def fmSpecLines (label : String) (lines : List String) : String :=
  match lines.dropWhile (fun l => !(label.data.isPrefixOf (pyStripL l.data))) with
  | [] => "Not found"
  | l :: ls =>
    removeSpacesNL (String.join (afterColon l ::
      ((ls.takeWhile (fun x => !stop_line x)).map pyStripS).take 4))

def fm_spec (label text : String) : String := fmSpecLines label (splitlinesPy text)

/-- Spec reading of the per-line formatting step: collapse internal
whitespace, and uppercase the line when it contains a keyword and is
shorter than 50 characters. -/
def formatLineSpec (line : List Char) : List Char :=
  if containsKeyword (cleanLineL line) && (cleanLineL line).length < 50 then
    pyUpperL (cleanLineL line)
  else cleanLineL line

/-! ## Concrete fixtures used by witnesses and counterexamples -/

/-- A well-formed pending record declaring the image path. -/
def recImage : DocRecord :=
  { fileId := "f1", uploadedBy := "u1", fileName := "a.png", fileType := "image"
    s3Key := "k", status := "pending" }

/-- The same record already completed (not pending). -/
def recDone : DocRecord := { recImage with status := "completed" }

/-- A page whose reader finds nothing: no QR codes, empty recognized
text, empty data dictionary. -/
def happyPage : PageEnv := { qr := .ok [], its := .ok "", itd := .ok [] }

/-- An environment in which every effect succeeds. -/
def envHappy : Env :=
  { upd0 := Option.none, upd1 := Option.none, upd2 := Option.none
    updFail := Option.none, download := Option.none, convert := .ok []
    imagePage := happyPage, fetch := fun _ => .ok "" }

/-- The field mapping on text matching nothing: every field the sentinel. -/
def fieldsNF : List (String × FieldValue) :=
  [("Invoice Number", .s "Not found"), ("Invoice Date", .s "Not found"),
   ("Due Date", .s "Not found"), ("Customer/Buyer PIN", .s "Not found"),
   ("Customer/Buyer Name", .s "Not found"), ("Supplier/Vendor PIN", .s "Not found"),
   ("Supplier/Vendor Name", .s "Not found"), ("Supplier Address", .s "Not found"),
   ("Customer Address", .s "Not found"), ("Line Items", .items []),
   ("Subtotal Amount", .s "Not found"), ("Taxable Amount", .s "Not found"),
   ("VAT/Tax Amount", .s "Not found"), ("Total Amount Due", .s "Not found"),
   ("Currency", .s "Not found"), ("Payment Terms", .s "Not found"),
   ("Purchase Order Number", .s "Not found"), ("Internal Data", .s "Not found"),
   ("Receipt Signature", .s "Not found"), ("SCU ID", .s "Not found"),
   ("CU INVOICE NO.", .s "Not found")]

/-- The degraded per-page result of the specification: empty text,
confidence 0, no tokens. -/
def degradedOCR (n : Nat) : OCRResult :=
  { page := n, text := "", confidence := 0, raw_text := "", word_count := 0
    line_count := 0, word_details := [] }

/-- A data-dictionary token carrying no valid confidence. -/
def tokNoConf : TessWord :=
  { word := "w", conf := -1, left := 0, top := 0, width := 1, height := 1 }

/-- The degraded page-1 result: empty text, confidence 0, no tokens. -/
def ocrEmpty : OCRResult :=
  { page := 1, text := "", confidence := round1 0, raw_text := "", word_count := 0
    line_count := 0, word_details := [] }

/-- The stored outcome of `envHappy`/`recImage`: no invoice number was
parsed, so the run stores status failed with score 40. -/
def dHappy : FinalData :=
  { status := "failed", validation_score := 40, errors := ["Missing Invoice Number"]
    invoice_fields := fieldsNF, validated_qr_links := [], invalid_qr_links := []
    ocr_results := [ocrEmpty], qr_data := [] }

/-! ## Claim C8 -/

/-- C8: the claim says the pre-write cleaning leaves no float, no empty
string and no null entry at any depth.  The cleaning contradicts this —
and its own docstring ("removes None values") — because containers are
filtered for `None` BEFORE each entry is cleaned, so an empty string
inside a list or dict is cleaned to `None` and kept: `[""]` cleans to
`[None]` and `{"a": " "}` cleans to `{"a": None}`. -/
theorem C8_clean_leaves_null :
    clean_for_dynamodb (.list [.str ""]) = .list [.none] ∧
    clean_for_dynamodb (.dict [("a", .str " ")]) = .dict [("a", .none)] ∧
    hasNone (clean_for_dynamodb (.list [.str ""])) = true :=
  ⟨rfl, rfl, rfl⟩

/-! ## Claim C10 -/

/-- C10: when no invoice number is parsed, the Invoice Number field holds
the sentinel "Not found"; the link verifier lowercases it to "not found"
and uses it as the search term, so a link whose fetched page text
contains the substring "not found" is classified valid even though no
invoice number was ever matched. -/
theorem C10_sentinel_link_valid :
    (extract_invoice_fields "").lookup "Invoice Number" = some (.s "Not found") ∧
    check_qr_links (fun _ => .ok "The page says: not found here")
      ["http://qr.example"] (extract_invoice_fields "")
      = (["http://qr.example"], []) :=
  ⟨rfl, rfl⟩

/-! ## Claim C2 -/

/-- C2, counterexample: the claim states every field value is a matched
trimmed string or the sentinel, never empty.  On the text
"Internal Data:" the Internal Data key is bound to the empty string
(the label line has nothing after its colon), which is neither a
non-empty match nor the sentinel. -/
theorem C2_empty_value_cex :
    (extract_invoice_fields "Internal Data:").lookup "Internal Data"
      = some (.s "") ∧ ("" : String) ≠ "Not found" :=
  ⟨rfl, by decide⟩

/-- C2, amended: for every input text the extraction returns the mapping
with exactly the declared keys in order — never absent — each bound to a
string (a matched value, the sentinel "Not found", or possibly the empty
string for the multi-line fields), and the line-items key is always
present as a (possibly empty) list. -/
theorem C2_fields_amended (text : String) :
    (extract_invoice_fields text).map Prod.fst = declaredKeys ∧
    (extract_invoice_fields text).all
      (fun kv => if kv.1 = "Line Items" then kv.2.isItems else kv.2.isStr) = true := by
  refine ⟨?_, ?_⟩ <;>
    simp [extract_invoice_fields, declaredKeys, FieldValue.isStr, FieldValue.isItems]

/-! ## Claim C6 -/

/-- C6, counterexample: the claim says fragments are consumed verbatim
and concatenated with no inserted whitespace, with no cap on the number
of consumed lines.  The code instead strips each line, removes every
space from the concatenation (so "X: a b" yields "ab", not "a b"), and
stops after 4 lines beyond the label ("X:" followed by lines a..f yields
"abcd", not "abcdef"); the label is also matched against the stripped
line, so "  X: q" is found rather than sentinel. -/
theorem C6_multiline_cex :
    find_multiline "X" "X: a b" = "ab" ∧ ("ab" : String) ≠ "a b" ∧
    find_multiline "X" "X:\na\nb\nc\nd\ne\nf" = "abcd" ∧
    find_multiline "X" "  X: q" = "q" :=
  ⟨rfl, by decide, rfl, rfl⟩

/-- The collection loop equals take-while/take of stripped lines. -/
theorem fmCollect_eq (ls : List String) (n : Nat) :
    fmCollect ls n = ((ls.takeWhile (fun x => !stop_line x)).map pyStripS).take n := by
  induction ls generalizing n with
  | nil => cases n <;> simp [fmCollect]
  | cons l t ih =>
    cases n with
    | zero => simp [fmCollect]
    | succ m =>
      by_cases h : stop_line l
      · simp [fmCollect, h]
      · simp [fmCollect, h, ih]

/-- The scan over the line list equals the spec-side formulation. -/
theorem fmGo_eq_spec (label : String) (lines : List String) :
    fmGo label lines = fmSpecLines label lines := by
  induction lines with
  | nil => simp [fmGo, fmSpecLines]
  | cons l t ih =>
    by_cases h : label.data.isPrefixOf (pyStripL l.data)
    · simp [fmGo, fmSpecLines, h, fmCollect_eq]
    · simpa [fmGo, fmSpecLines, h] using ih

/-- C6, amended: the labeled multi-line extraction finds the first line
whose STRIPPED form starts with the label; takes the trimmed text after
that line's first colon (empty if it has no colon) as the first
fragment; consumes up to 4 subsequent lines, each stripped, until a
blank line, a separator line of only dashes/spaces, or a line of at
least two stripped characters ending in a colon; concatenates the
fragments and removes every space from the result; and returns the
sentinel "Not found" exactly when the label is absent. -/
theorem C6_multiline_amended (label text : String) :
    find_multiline label text = fm_spec label text :=
  fmGo_eq_spec label (splitlinesPy text)

/-! ## Claim C3 -/

/-- C3, counterexample: the claim says the 200 acknowledgement body
carries the document identity and status "processing".  The handler's
success body is `{message, fileId, document_id}`: it has no status key
at all (and a non-pending record is rejected 400 with no background
work, which the claim does state correctly). -/
theorem C3_trigger_body_cex :
    (process_document recImage).response
      = .ok [("message", some "Processing started"),
             ("fileId", some "f1"), ("document_id", some "f1")] ∧
    List.lookup "status"
      [(("message" : String), some ("Processing started" : String)),
       ("fileId", some "f1"), ("document_id", some "f1")] = Option.none :=
  ⟨rfl, rfl⟩

/-- C3, amended: the trigger endpoint raises 400 exactly when the
record's status is not "pending", and then starts no background work
(malformed request bodies are rejected by the web framework before the
handler runs and are not modelled here); otherwise it schedules the
background task and returns 200 whose body carries the document
identity under fileId and document_id plus the message
"Processing started" — and no status field. -/
theorem C3_trigger_amended (r : DocRecord) :
    (r.status ≠ "pending" →
      process_document r
        = ⟨.error (400, "Document status must be 'pending'"), false⟩) ∧
    (r.status = "pending" →
      (process_document r).background_started = true ∧
      (process_document r).response
        = .ok [("message", some "Processing started"),
               ("fileId", resolved_file_id r), ("document_id", resolved_file_id r)] ∧
      ∀ body, (process_document r).response = .ok body →
        body.lookup "status" = Option.none) := by
  by_cases h : r.status = "pending"
  · refine ⟨fun hc => absurd h hc, fun _ => ⟨?_, ?_, ?_⟩⟩
    · simp [process_document, h]
    · simp [process_document, h]
    · intro body hb
      simp [process_document, h] at hb
      subst hb
      rfl
  · refine ⟨fun _ => ?_, fun hc => absurd hc h⟩
    simp [process_document, h]

/-- Witness: a completed record is rejected with 400 and no background
work; a pending record starts the background task. -/
theorem C3_trigger_amended_witness :
    process_document recDone
      = ⟨.error (400, "Document status must be 'pending'"), false⟩ ∧
    (process_document recImage).background_started = true :=
  ⟨(C3_trigger_amended recDone).1 (by decide),
   ((C3_trigger_amended recImage).2 rfl).1⟩

/-! ## Orchestrator lemmas -/

theorem except_bind_ok_eq {ε α β : Type} (a : α) (f : α → Except ε β) :
    (Except.ok a >>= f) = f a := rfl

theorem except_bind_err_eq {ε α β : Type} (e : ε) (f : α → Except ε β) :
    ((Except.error e : Except ε α) >>= f) = Except.error e := rfl

/-- A successful attempt always produces a result assembled by
`mkFinal`. -/
theorem runAttempt_ok_shape (env : Env) (r : DocRecord) (d : FinalData)
    (h : runAttempt env r = .ok d) :
    ∃ f v i o q, d = mkFinal f v i o q := by
  unfold runAttempt at h
  repeat' split at h
  all_goals simp at h
  exact ⟨_, _, _, _, _, h.symm⟩

/-- The assembled final result satisfies the scoring and error-list
relationships of the source's lines 462-474. -/
theorem mkFinal_props (f : List (String × FieldValue)) (v i : List String)
    (o : List OCRResult) (q : List String) :
    (mkFinal f v i o q).validation_score ≤ 100 ∧
    ((mkFinal f v i o q).status = "completed"
      ↔ 50 ≤ (mkFinal f v i o q).validation_score) ∧
    ((mkFinal f v i o q).validation_score < 50
      → (mkFinal f v i o q).status = "failed") ∧
    ((mkFinal f v i o q).status = "completed" → (mkFinal f v i o q).errors = []) ∧
    ((mkFinal f v i o q).errors ≠ [] → (mkFinal f v i o q).status = "failed") := by
  unfold mkFinal validation_score
  by_cases h : f.lookup "Invoice Number" ≠ some (.s "Not found") <;> simp [h]

/-! ## Claim C1 -/

/-- C1: every stored pipeline result has its validation score in
[0,100] (it is a natural number, bounded by 100), status "completed"
exactly when the score is at least 50 and status "failed" otherwise,
and an error list that is empty whenever the status is "completed" and
non-empty only with status "failed". -/
theorem C1_completed_run_scoring (env : Env) (r : DocRecord) (d : FinalData)
    (h : runBackground env r = .stored d) :
    d.validation_score ≤ 100 ∧
    (d.status = "completed" ↔ 50 ≤ d.validation_score) ∧
    (d.validation_score < 50 → d.status = "failed") ∧
    (d.status = "completed" → d.errors = []) ∧
    (d.errors ≠ [] → d.status = "failed") := by
  have hok : runAttempt env r = .ok d := by
    unfold runBackground at h
    split at h
    · simp_all
    · split at h <;> simp_all
  obtain ⟨f, v, i, o, q, rfl⟩ := runAttempt_ok_shape env r d hok
  exact mkFinal_props f v i o q

/-- Witness: the all-effects-succeed run on the empty image stores
status "failed" with score 40, satisfying every clause. -/
theorem C1_completed_run_scoring_witness :
    dHappy.validation_score ≤ 100 ∧
    (dHappy.status = "completed" ↔ 50 ≤ dHappy.validation_score) ∧
    (dHappy.validation_score < 50 → dHappy.status = "failed") ∧
    (dHappy.status = "completed" → dHappy.errors = []) ∧
    (dHappy.errors ≠ [] → dHappy.status = "failed") :=
  C1_completed_run_scoring envHappy recImage dHappy rfl

/-! ## Claim C4 -/

/-- C4, counterexample: the claim says a failed progress-snapshot write
is swallowed and the run continues to its normal terminal status.  With
every other effect identical to a run that stores its result, failing
only the first progress write ({status: processing, current_step:
downloading}) makes `update_dynamodb` re-raise, the outer boundary
catches it, and the run ends marked failed instead of storing its
normal result. -/
theorem C4_progress_write_cex :
    runBackground { envHappy with upd0 := some "boom" } recImage
      = .markedFailed "boom" ∧
    Outcome.markedFailed "boom" ≠ .stored dHappy ∧
    runBackground envHappy recImage = .stored dHappy :=
  ⟨rfl, by simp, rfl⟩

/-- C4, amended: a failure of a progress-snapshot write is logged and
re-raised by `update_dynamodb`; the orchestrator's outer failure
boundary catches it and marks the record failed with that error (or,
if the failure-path write itself fails, the exception escapes the
background task).  The run does not continue past the failed write. -/
theorem C4_progress_write_amended (env : Env) (r : DocRecord) (e : String)
    (hft : r.fileType ≠ "") (h0 : env.upd0 = some e) :
    runBackground env r
      = match env.updFail with
        | Option.none => .markedFailed e
        | some _ => .lost e := by
  have hatt : runAttempt env r = .error e := by
    unfold runAttempt resolveFileType
    simp [hft, h0, doUpdate]
  unfold runBackground
  rw [hatt]

/-- Witness: the first progress write failing with "boom" in the
otherwise-succeeding environment marks the record failed. -/
theorem C4_progress_write_amended_witness :
    runBackground { envHappy with upd0 := some "boom" } recImage
      = Outcome.markedFailed "boom" := by
  have h := C4_progress_write_amended { envHappy with upd0 := some "boom" }
    recImage "boom" (by decide) rfl
  simpa [envHappy] using h

/-! ## Claim C5 -/

/-- A raising recognition call (`image_to_string`) propagates out of
`extract_text_ocr`: only the data/confidence pass is inside the `try`. -/
theorem extract_text_ocr_error (e : String) (itd : Except String (List TessWord))
    (n : Nat) : extract_text_ocr (.error e) itd n = .error e := rfl

theorem round1_zero : round1 0 = 0 := by norm_num [round1]

/-- If every token confidence is -1, the word-detail extraction is empty. -/
theorem extract_word_details_nil (data : List TessWord)
    (h : (data.map (fun w => w.conf)).filter confValid = []) :
    extract_word_details data = [] := by
  unfold extract_word_details
  have hall : ∀ w ∈ data, ¬(confValid w.conf = true) := by
    intro w hw
    exact List.filter_eq_nil_iff.mp h w.conf (List.mem_map_of_mem _ hw)
  have hfil : data.filter
      (fun w => !(pyStripL w.word.data).isEmpty && confValid w.conf) = [] := by
    refine List.filter_eq_nil_iff.mpr fun w hw => ?_
    have := hall w hw
    simp_all
  rw [hfil]
  rfl

/-- C5, counterexample: the claim says recognition failure on a page
yields a degraded result instead of raising.  A raising recognition
call is not caught: it propagates, and the run is aborted to the
failure path rather than continuing with a degraded page. -/
theorem C5_ocr_raise_cex :
    extract_text_ocr (.error "tesseract crashed") (.ok []) 1
      = .error "tesseract crashed" ∧
    runBackground
      { envHappy with imagePage := { happyPage with its := .error "tesseract crashed" } }
      recImage
      = .markedFailed "tesseract crashed" :=
  ⟨rfl, rfl⟩

/-- C5, amended: when recognition RETURNS empty text (the unreadable-page
behaviour) the page result is degraded — empty text, confidence 0, no
token details — whether the confidence pass fails or reports no valid
tokens, and the run continues; but a RAISING recognition call
propagates (only the confidence/detail pass is guarded), aborting the
run to the outer boundary, which still reaches the terminal status
"failed" (or loses the record if the failure write also fails). -/
theorem C5_ocr_amended :
    (∀ e itd n, extract_text_ocr (.error e) itd n = .error e) ∧
    (∀ e n, extract_text_ocr (.ok "") (.error e) n = .ok (degradedOCR n)) ∧
    (∀ data n, (data.map (fun w => w.conf)).filter confValid = [] →
      extract_text_ocr (.ok "") (.ok data) n = .ok (degradedOCR n)) ∧
    (∀ env r e, r.fileType = "image" → env.imagePage.qr = .ok [] →
      env.upd0 = Option.none → env.download = Option.none →
      env.imagePage.its = .error e →
      runBackground env r
        = match env.updFail with
          | Option.none => .markedFailed e
          | some _ => .lost e) := by
  refine ⟨extract_text_ocr_error, fun e n => ?_, fun data n h => ?_,
    fun env r e hft hqr h0 hdl hits => ?_⟩
  · simp only [degradedOCR]
    conv_rhs => rw [← round1_zero]
    rfl
  · have hcd : ocrConfDetails (.ok data) = (0, []) := by
      simp [ocrConfDetails, h, extract_word_details_nil data h]
    simp only [extract_text_ocr, hcd, degradedOCR]
    conv_rhs => rw [← round1_zero]
    rfl
  · have hatt : runAttempt env r = .error e := by
      unfold runAttempt resolveFileType rasterize processPages
      simp [hft, h0, hdl, hqr, hits, doUpdate, extract_text_ocr_error,
        except_bind_ok_eq, except_bind_err_eq]
    unfold runBackground
    rw [hatt]

/-- Witness: concrete instances of each clause of the amended claim. -/
theorem C5_ocr_amended_witness :
    extract_text_ocr (.error "boom") (.ok []) 2 = .error "boom" ∧
    extract_text_ocr (.ok "") (.error "data boom") 3 = .ok (degradedOCR 3) ∧
    extract_text_ocr (.ok "") (.ok [tokNoConf]) 4 = .ok (degradedOCR 4) ∧
    runBackground
      { envHappy with imagePage := { happyPage with its := .error "page boom" } }
      recImage = .markedFailed "page boom" := by
  refine ⟨C5_ocr_amended.1 "boom" (.ok []) 2,
    C5_ocr_amended.2.1 "data boom" 3,
    C5_ocr_amended.2.2.1 [tokNoConf] 4 (by decide), ?_⟩
  have h := C5_ocr_amended.2.2.2
    { envHappy with imagePage := { happyPage with its := .error "page boom" } }
    recImage "page boom" rfl rfl rfl rfl rfl
  simpa [envHappy] using h

/-! ## Claim C9 -/

/-- The two result lists of the classification loop always partition the
input by length. -/
theorem check_core_partition (fetch : String → Except String String)
    (expected : String) (links : List String) :
    (check_qr_links_core fetch expected links).1.length
      + (check_qr_links_core fetch expected links).2.length = links.length := by
  induction links with
  | nil => rfl
  | cons link rest ih =>
    unfold check_qr_links_core
    cases hf : fetch link with
    | ok page =>
      simp only [hf]
      split <;> simp <;> omega
    | error e =>
      simp only [hf]
      simp
      omega

/-- A payload whose fetch raises lands in the invalid list, annotated
with the error. -/
theorem check_core_error_mem (fetch : String → Except String String)
    (expected : String) (links : List String) :
    ∀ link e, link ∈ links → fetch link = .error e →
      (link ++ " - Error: " ++ e) ∈ (check_qr_links_core fetch expected links).2 := by
  induction links with
  | nil => intro _ _ hmem _; cases hmem
  | cons l rest ih =>
    intro link e hmem hf
    unfold check_qr_links_core
    rcases List.mem_cons.mp hmem with rfl | hmem
    · rw [hf]
      exact List.mem_cons_self _ _
    · have hrec := ih link e hmem hf
      cases hfl : fetch l with
      | ok page =>
        simp only [hfl]
        split
        · exact hrec
        · exact List.mem_cons_of_mem _ hrec
      | error e2 =>
        simp only [hfl]
        exact List.mem_cons_of_mem _ hrec

/-- C9: for every fetch behaviour, payload list and parsed field
mapping, the verifier returns two lists whose lengths sum to the input
length — each payload contributing to exactly one — and a payload whose
fetch raises appears in the invalid list annotated with the error. -/
theorem C9_link_partition (fetch : String → Except String String)
    (qr_links : List String) (invoice_fields : List (String × FieldValue)) :
    ((check_qr_links fetch qr_links invoice_fields).1.length
       + (check_qr_links fetch qr_links invoice_fields).2.length = qr_links.length) ∧
    (∀ link e, link ∈ qr_links → fetch link = .error e →
      (link ++ " - Error: " ++ e)
        ∈ (check_qr_links fetch qr_links invoice_fields).2) := by
  unfold check_qr_links
  exact ⟨check_core_partition _ _ _, check_core_error_mem _ _ _⟩

/-- A fetch oracle that raises on the first link and succeeds on the
second, with a page that does not mention the expected term. -/
def fetchW : String → Except String String :=
  fun l => if l = "a" then .error "E" else .ok "some page"

/-- Witness: two payloads, first fetch raising — lengths sum to 2 and
the annotated first payload is in the invalid list. -/
theorem C9_link_partition_witness :
    ((check_qr_links fetchW ["a", "b"] fieldsNF).1.length
       + (check_qr_links fetchW ["a", "b"] fieldsNF).2.length = 2) ∧
    ("a - Error: E") ∈ (check_qr_links fetchW ["a", "b"] fieldsNF).2 :=
  ⟨(C9_link_partition fetchW ["a", "b"] fieldsNF).1,
   (C9_link_partition fetchW ["a", "b"] fieldsNF).2 "a" "E" (by decide) rfl⟩

/-! ## Claim C7: supporting lemmas

The source's formatter drops whitespace-only lines entirely, so the
joined result never contains consecutive newlines; the subsequent
`while`-replace of triple newlines and the final strip are shown to be
no-ops on it. -/

theorem char_ne_of_toNat_ne {a b : Char} (h : a.toNat ≠ b.toNat) : a ≠ b :=
  fun hab => h (by rw [hab])

theorem pyWSChar_eq_false_of_toNat (c : Char) (h1 : 65 ≤ c.toNat)
    (h2 : c.toNat ≤ 90) : pyWSChar c = false := by
  have hne : ∀ d : Char, c.toNat ≠ d.toNat → (c == d) = false := fun d hd =>
    beq_eq_false_iff_ne.mpr (char_ne_of_toNat_ne hd)
  have e1 : (' ' : Char).toNat = 32 := rfl
  have e2 : ('\t' : Char).toNat = 9 := rfl
  have e3 : ('\n' : Char).toNat = 10 := rfl
  have e4 : ('\r' : Char).toNat = 13 := rfl
  have e5 : ('\x0b' : Char).toNat = 11 := rfl
  have e6 : ('\x0c' : Char).toNat = 12 := rfl
  unfold pyWSChar
  rw [hne ' ' (by omega), hne '\t' (by rw [e2]; omega), hne '\n' (by rw [e3]; omega),
    hne '\r' (by rw [e4]; omega), hne '\x0b' (by rw [e5]; omega),
    hne '\x0c' (by rw [e6]; omega)]
  rfl

theorem ofNat_toNat_bounded (m : Nat) (h1 : 65 ≤ m) (h2 : m ≤ 90) :
    (Char.ofNat m).toNat = m := by
  interval_cases m <;> rfl

theorem toUpper_shift (c : Char) :
    Char.toUpper c = c
      ∨ (65 ≤ (Char.toUpper c).toNat ∧ (Char.toUpper c).toNat ≤ 90) := by
  unfold Char.toUpper
  by_cases hc : c.toNat ≥ 97 ∧ c.toNat ≤ 122
  · right
    rw [if_pos hc]
    rw [ofNat_toNat_bounded (c.toNat - 32) (by omega) (by omega)]
    omega
  · left
    rw [if_neg hc]

theorem pyWSChar_toUpper (c : Char) (h : pyWSChar c = false) :
    pyWSChar (Char.toUpper c) = false := by
  rcases toUpper_shift c with he | ⟨h1, h2⟩
  · rw [he]; exact h
  · exact pyWSChar_eq_false_of_toNat _ h1 h2

theorem toUpper_ne_nl (c : Char) (h : c ≠ '\n') : Char.toUpper c ≠ '\n' := by
  rcases toUpper_shift c with he | ⟨h1, h2⟩
  · rw [he]; exact h
  · refine char_ne_of_toNat_ne ?_
    have : ('\n' : Char).toNat = 10 := rfl
    omega

theorem ne_nl_of_nonws (c : Char) (h : pyWSChar c = false) : c ≠ '\n' := by
  intro hc
  rw [hc] at h
  exact absurd h (by decide)

/-- The invariant carried by every kept line of the formatter: non-empty,
newline-free, and beginning/ending in a non-whitespace character. -/
def goodPiece (p : List Char) : Prop :=
  p ≠ [] ∧ (∀ c ∈ p, c ≠ '\n') ∧
  (∀ c, p.head? = some c → pyWSChar c = false) ∧
  (∀ c, p.getLast? = some c → pyWSChar c = false)

theorem splitWsAux_frags (l : List Char) (acc : List Char)
    (hacc : ∀ c ∈ acc, pyWSChar c = false) :
    ∀ q ∈ splitWsAux l acc, q ≠ [] ∧ ∀ c ∈ q, pyWSChar c = false := by
  induction l generalizing acc with
  | nil =>
    intro q hq
    unfold splitWsAux at hq
    by_cases ha : acc.isEmpty
    · simp [ha] at hq
    · rw [if_neg ha] at hq
      rcases List.mem_singleton.mp hq with rfl
      refine ⟨?_, fun c hc => hacc c (List.mem_reverse.mp hc)⟩
      simpa [List.isEmpty_iff] using ha
  | cons c t ih =>
    intro q hq
    unfold splitWsAux at hq
    by_cases hw : pyWSChar c
    · rw [if_pos hw] at hq
      by_cases ha : acc.isEmpty
      · rw [if_pos ha] at hq
        exact ih [] (by simp) q hq
      · rw [if_neg ha] at hq
        rcases List.mem_cons.mp hq with rfl | hq
        · refine ⟨?_, fun d hd => hacc d (List.mem_reverse.mp hd)⟩
          simpa [List.isEmpty_iff] using ha
        · exact ih [] (by simp) q hq
    · rw [if_neg hw] at hq
      refine ih (c :: acc) ?_ q hq
      intro d hd
      rcases List.mem_cons.mp hd with rfl | hd
      · exact Bool.not_eq_true _ ▸ (by simpa using hw)
      · exact hacc d hd

theorem head?_append_left {p s : List Char} (h : p ≠ []) :
    (p ++ s).head? = p.head? := by
  cases p with
  | nil => exact absurd rfl h
  | cons a t => rfl

theorem getLast?_cons_of_ne_nil {x : Char} {s : List Char} (h : s ≠ []) :
    (x :: s).getLast? = s.getLast? := by
  cases s with
  | nil => exact absurd rfl h
  | cons b t => exact List.getLast?_cons_cons

theorem joinWith_space_good (pieces : List (List Char))
    (hp : ∀ q ∈ pieces, q ≠ [] ∧ ∀ c ∈ q, pyWSChar c = false)
    (hne : pieces ≠ []) : goodPiece (joinWith ' ' pieces) := by
  induction pieces with
  | nil => exact absurd rfl hne
  | cons p ps ih =>
    obtain ⟨hpne, hpc⟩ := hp p (List.mem_cons_self _ _)
    cases ps with
    | nil =>
      refine ⟨hpne, fun c hc => ne_nl_of_nonws c (hpc c hc), ?_, ?_⟩
      · exact fun c hc => hpc c (List.mem_of_mem_head? hc)
      · exact fun c hc => hpc c (List.mem_of_getLast?_eq_some hc)
    | cons q qs =>
      have ihg := ih (fun r hr => hp r (List.mem_cons_of_mem _ hr)) (by simp)
      obtain ⟨ig1, ig2, ig3, ig4⟩ := ihg
      show goodPiece (p ++ ' ' :: joinWith ' ' (q :: qs))
      refine ⟨by simp, ?_, ?_, ?_⟩
      · intro c hc
        rcases List.mem_append.mp hc with hc | hc
        · exact ne_nl_of_nonws c (hpc c hc)
        · rcases List.mem_cons.mp hc with rfl | hc
          · decide
          · exact ig2 c hc
      · intro c hc
        rw [head?_append_left hpne] at hc
        exact hpc c (List.mem_of_mem_head? hc)
      · intro c hc
        rw [List.getLast?_append_cons, getLast?_cons_of_ne_nil ig1] at hc
        exact ig4 c hc

theorem head?_map_upper (p : List Char) : (pyUpperL p).head? = p.head?.map Char.toUpper := by
  cases p <;> rfl

theorem getLast?_map_upper (p : List Char) :
    (pyUpperL p).getLast? = p.getLast?.map Char.toUpper := by
  unfold pyUpperL
  rw [List.getLast?_eq_head?_reverse, List.getLast?_eq_head?_reverse,
    ← List.map_reverse]
  cases p.reverse <;> rfl

theorem goodPiece_upper (p : List Char) (h : goodPiece p) : goodPiece (pyUpperL p) := by
  obtain ⟨h1, h2, h3, h4⟩ := h
  refine ⟨by simpa [pyUpperL] using h1, ?_, ?_, ?_⟩
  · intro c hc
    rcases List.mem_map.mp hc with ⟨d, hd, rfl⟩
    exact toUpper_ne_nl d (h2 d hd)
  · intro c hc
    rw [head?_map_upper] at hc
    rcases Option.map_eq_some'.mp hc with ⟨d, hd, rfl⟩
    exact pyWSChar_toUpper d (h3 d hd)
  · intro c hc
    rw [getLast?_map_upper] at hc
    rcases Option.map_eq_some'.mp hc with ⟨d, hd, rfl⟩
    exact pyWSChar_toUpper d (h4 d hd)

/-- Two consecutive newlines occur somewhere in the list. -/
def hasNN : List Char → Bool
  | a :: b :: t => (a == '\n' && b == '\n') || hasNN (b :: t)
  | _ => false

theorem hasNN_tail {c : Char} {t : List Char} (h : hasNN (c :: t) = false) :
    hasNN t = false := by
  cases t with
  | nil => rfl
  | cons b t2 =>
    unfold hasNN at h
    exact (Bool.or_eq_false_iff.mp h).2

theorem hasNN_append (p s : List Char) (hp : ∀ c ∈ p, c ≠ '\n') :
    hasNN (p ++ s) = hasNN s := by
  induction p with
  | nil => rfl
  | cons a p2 ih =>
    have ha : a ≠ '\n' := hp a (List.mem_cons_self _ _)
    have ih2 := ih (fun c hc => hp c (List.mem_cons_of_mem _ hc))
    cases hps : p2 ++ s with
    | nil =>
      obtain ⟨hp2, hs⟩ := List.append_eq_nil.mp hps
      subst hp2
      subst hs
      rfl
    | cons b t =>
      show hasNN (a :: (p2 ++ s)) = hasNN s
      rw [hps]
      show ((a == '\n' && b == '\n') || hasNN (b :: t)) = hasNN s
      rw [beq_eq_false_iff_ne.mpr ha, Bool.false_and, Bool.false_or, ← hps]
      exact ih2

theorem hasNN_of_nlfree (p : List Char) (hp : ∀ c ∈ p, c ≠ '\n') :
    hasNN p = false := by
  have := hasNN_append p [] hp
  simpa using this

theorem joinNL_ne_nil {q : List Char} (r : List (List Char)) (hq : q ≠ []) :
    joinNL (q :: r) ≠ [] := by
  cases r with
  | nil => simpa [joinNL] using hq
  | cons r0 r2 =>
    show q ++ '\n' :: joinNL (r0 :: r2) ≠ []
    simp

theorem joinNL_head? {q : List Char} (r : List (List Char)) (hq : q ≠ []) :
    (joinNL (q :: r)).head? = q.head? := by
  cases r with
  | nil => rfl
  | cons r0 r2 =>
    show (q ++ '\n' :: joinNL (r0 :: r2)).head? = q.head?
    exact head?_append_left hq

theorem hasNN_joinNL (pieces : List (List Char))
    (h : ∀ p ∈ pieces, p ≠ [] ∧ ∀ c ∈ p, c ≠ '\n') :
    hasNN (joinNL pieces) = false := by
  induction pieces with
  | nil => rfl
  | cons p ps ih =>
    obtain ⟨hpne, hpc⟩ := h p (List.mem_cons_self _ _)
    have ih2 := ih (fun r hr => h r (List.mem_cons_of_mem _ hr))
    cases ps with
    | nil => exact hasNN_of_nlfree p hpc
    | cons q qs =>
      obtain ⟨hqne, hqc⟩ := h q (List.mem_cons_of_mem _ (List.mem_cons_self _ _))
      show hasNN (p ++ '\n' :: joinNL (q :: qs)) = false
      rw [hasNN_append p _ hpc]
      cases hj : joinNL (q :: qs) with
      | nil => rfl
      | cons b t =>
        have hbq : q.head? = some b := by
          have hh := joinNL_head? qs hqne
          rw [hj] at hh
          exact hh.symm
        have hb : b ≠ '\n' := hqc b (List.mem_of_mem_head? hbq)
        rw [hj] at ih2
        unfold hasNN
        rw [beq_eq_false_iff_ne.mpr hb, ih2]
        rfl

theorem nnn_leading_hasNN {l : List Char}
    (h : List.isPrefixOf ['\n', '\n', '\n'] l = true) : hasNN l = true := by
  cases l with
  | nil => simp [List.isPrefixOf] at h
  | cons a t =>
    cases t with
    | nil => simp [List.isPrefixOf] at h
    | cons b t2 =>
      simp [List.isPrefixOf] at h
      obtain ⟨ha, hb, -⟩ := h
      subst ha
      subst hb
      unfold hasNN
      simp

theorem containsSub_nnn (l : List Char) (h : hasNN l = false) :
    containsSubL l ['\n', '\n', '\n'] = false := by
  induction l with
  | nil => rfl
  | cons c t ih =>
    have ht := ih (hasNN_tail h)
    show (List.isPrefixOf ['\n', '\n', '\n'] (c :: t)
      || containsSubL t ['\n', '\n', '\n']) = false
    rw [ht, Bool.or_false]
    cases hpre : List.isPrefixOf ['\n', '\n', '\n'] (c :: t) with
    | false => rfl
    | true => simp [nnn_leading_hasNN hpre] at h

theorem collapseNewlines_noop (fuel : Nat) (l : List Char)
    (h : hasNN l = false) : collapseNewlines fuel l = l := by
  cases fuel with
  | zero => rfl
  | succ f =>
    unfold collapseNewlines
    simp [containsSub_nnn l h]

theorem dropWhile_nonws_eq_self (l : List Char)
    (h : ∀ c, l.head? = some c → pyWSChar c = false) :
    l.dropWhile pyWSChar = l := by
  cases l with
  | nil => rfl
  | cons a t => simp [List.dropWhile_cons, h a rfl]

theorem pyStripL_id (l : List Char)
    (hh : ∀ c, l.head? = some c → pyWSChar c = false)
    (hl : ∀ c, l.getLast? = some c → pyWSChar c = false) :
    pyStripL l = l := by
  unfold pyStripL
  rw [dropWhile_nonws_eq_self l hh]
  rw [dropWhile_nonws_eq_self l.reverse ?hr]
  · exact List.reverse_reverse l
  · intro c hc
    rw [List.head?_reverse] at hc
    exact hl c hc

theorem joinNL_head_nonws (pieces : List (List Char))
    (h : ∀ p ∈ pieces, goodPiece p) :
    ∀ c, (joinNL pieces).head? = some c → pyWSChar c = false := by
  cases pieces with
  | nil => intro c hc; simp [joinNL] at hc
  | cons p ps =>
    intro c hc
    have hp := h p (List.mem_cons_self _ _)
    rw [joinNL_head? ps hp.1] at hc
    exact hp.2.2.1 c hc

theorem joinNL_last_nonws (pieces : List (List Char))
    (h : ∀ p ∈ pieces, goodPiece p) :
    ∀ c, (joinNL pieces).getLast? = some c → pyWSChar c = false := by
  induction pieces with
  | nil => intro c hc; simp [joinNL] at hc
  | cons p ps ih =>
    intro c hc
    cases ps with
    | nil => exact (h p (List.mem_cons_self _ _)).2.2.2 c hc
    | cons q qs =>
      have hq := h q (List.mem_cons_of_mem _ (List.mem_cons_self _ _))
      have ih2 := ih (fun r hr => h r (List.mem_cons_of_mem _ hr))
      rw [show joinNL (p :: q :: qs) = p ++ '\n' :: joinNL (q :: qs) from rfl,
        List.getLast?_append_cons,
        getLast?_cons_of_ne_nil (joinNL_ne_nil qs hq.1)] at hc
      exact ih2 c hc

theorem formatLineSpec_isEmpty (l : List Char) :
    (formatLineSpec l).isEmpty = (cleanLineL l).isEmpty := by
  unfold formatLineSpec
  split
  · cases hc : cleanLineL l <;> simp [pyUpperL, hc]
  · rfl

theorem formatLineL_eq (l : List Char) :
    formatLineL l
      = if (cleanLineL l).isEmpty then Option.none else some (formatLineSpec l) := by
  unfold formatLineL formatLineSpec
  by_cases hc : (cleanLineL l).isEmpty <;>
    by_cases hk : containsKeyword (cleanLineL l) <;>
      by_cases hlen : (cleanLineL l).length < 50 <;>
        simp [hc, hk, hlen]

theorem filterMap_formatLine (lines : List (List Char)) :
    lines.filterMap formatLineL
      = (lines.map formatLineSpec).filter (fun l => !l.isEmpty) := by
  induction lines with
  | nil => rfl
  | cons l t ih =>
    rw [List.filterMap_cons, List.map_cons, List.filter_cons, formatLineL_eq]
    by_cases hc : (cleanLineL l).isEmpty = true
    · simp [hc, formatLineSpec_isEmpty, ih]
    · simp [hc, formatLineSpec_isEmpty, ih]

theorem formattedLines_good (raw : List Char) :
    ∀ p ∈ ((splitNLAux raw []).map formatLineSpec).filter (fun l => !l.isEmpty),
      goodPiece p := by
  intro p hp
  rw [List.mem_filter] at hp
  obtain ⟨hp1, hp2⟩ := hp
  rw [List.mem_map] at hp1
  obtain ⟨line, -, rfl⟩ := hp1
  rw [formatLineSpec_isEmpty] at hp2
  have hcne : cleanLineL line ≠ [] := by
    intro hnil
    rw [hnil] at hp2
    simp at hp2
  have hpieces : pySplitWsL line ≠ [] := by
    intro hnil
    exact hcne (by unfold cleanLineL pySplitWsL at *; rw [hnil]; rfl)
  have hgood : goodPiece (cleanLineL line) := by
    unfold cleanLineL
    exact joinWith_space_good _ (splitWsAux_frags line [] (by simp)) hpieces
  unfold formatLineSpec
  split
  · exact goodPiece_upper _ hgood
  · exact hgood

/-! ## Claim C7 -/

/-- C7, counterexample: the claim says every run of 3 or more blank
lines collapses to exactly 2 (and, implicitly, shorter runs survive).
The formatter instead drops whitespace-only lines entirely: a run of 3
blank lines becomes none ("a\n\n\n\nb" formats to "a\nb", not
"a\n\n\nb"), and even a single blank line is removed. -/
theorem C7_format_blank_lines_cex :
    format_ocr_text "a\n\n\n\nb" = "a\nb" ∧
    ("a\nb" : String) ≠ "a\n\n\nb" ∧
    format_ocr_text "a\n\nb" = "a\nb" :=
  ⟨rfl, by decide, rfl⟩

/-- C7, amended: for raw text with any non-whitespace content, the
formatter collapses internal whitespace within each line, uppercases
each line shorter than 50 characters containing one of the keywords
invoice/total/date/amount (case-insensitive), DROPS whitespace-only
lines entirely (so blank-line runs are removed, not collapsed to two),
and joins the kept lines with single newlines; whitespace-only input is
returned unchanged.  The source's triple-newline collapse loop and
final strip are no-ops on that join. -/
theorem C7_format_amended (raw : String) (h : pyStripL raw.data ≠ []) :
    format_ocr_text raw
      = ⟨joinNL (((splitNLAux raw.data []).map formatLineSpec).filter
          (fun l => !l.isEmpty))⟩ := by
  have hie : (pyStripL raw.data).isEmpty = false := by
    cases hx : pyStripL raw.data with
    | nil => exact absurd hx h
    | cons a t => rfl
  unfold format_ocr_text formattedLinesL
  rw [hie]
  simp only [Bool.false_eq_true, if_false, filterMap_formatLine]
  have hgood := formattedLines_good raw.data
  have hnn : hasNN (joinNL (((splitNLAux raw.data []).map formatLineSpec).filter
      (fun l => !l.isEmpty))) = false :=
    hasNN_joinNL _ (fun p hp => ⟨(hgood p hp).1, (hgood p hp).2.1⟩)
  rw [collapseNewlines_noop _ _ hnn]
  rw [pyStripL_id _ (joinNL_head_nonws _ hgood) (joinNL_last_nonws _ hgood)]

/-- Witness: a concrete text with a keyword line, a blank run and a
plain line, formatted per the amended description. -/
theorem C7_format_amended_witness :
    format_ocr_text "Total x\n\n\nok"
      = ⟨joinNL (((splitNLAux ("Total x\n\n\nok").data []).map formatLineSpec).filter
          (fun l => !l.isEmpty))⟩ :=
  C7_format_amended "Total x\n\n\nok" (by decide)

end DocProc
